import Mathlib

/-!
Shallow embedding of the excavator repository (src/excavator/excavator.py and
src/excavator/broker/tda.py): the market-session polling loop, the option-chain
fetch/retry logic, the chain flattener and the CSV/gzip persistence layer.

Python strings are modelled as `List Char`, Python dicts as association lists,
machine timestamps as integer microseconds (`Nat`), price fields as `Int`
(no claim computes with their values), and Python exceptions as an explicit
`PyErr`-valued outcome.
-/

set_option autoImplicit false

namespace Excavator

/-- Python exceptions that the embedded code paths can raise. -/
inductive PyErr where
  | typeError
  | unboundLocalError
  deriving DecidableEq, Repr

/-- A Python string, modelled as its list of characters. -/
abbrev PyStr := List Char

/-- The literal status string compared against in `TdaBroker.get_option_chain`. -/
def failedStatus : PyStr := ['F', 'A', 'I', 'L', 'E', 'D']

/-- The session key looked for in `TdaBroker.process_session_hours`. -/
def regularMarketKey : PyStr := ['r', 'e', 'g', 'u', 'l', 'a', 'r', 'M', 'a', 'r', 'k', 'e', 't']

/-- The upstream full-word put marker compared against in `Excavator.process_strike`. -/
def putWord : PyStr := ['P', 'U', 'T']

/-! ### Time, in integer microseconds -/

/-- Microseconds per minute. -/
def usPerMinute : Nat := 60000000

/-- Embeds `now.replace(second=0, microsecond=0)`: truncate a microsecond
timestamp down to its minute, zeroing seconds and sub-seconds. -/
def truncMinute (t : Nat) : Nat := t / usPerMinute * usPerMinute

/-! ### Python string operations used by the source -/

/-- Embeds `s.replace(ch, "")` for a one-character pattern: every occurrence
of `ch` is removed. -/
def removeChar (ch : Char) : PyStr → PyStr
  | [] => []
  | c :: rest => if c = ch then removeChar ch rest else c :: removeChar ch rest

/-- Embeds Python `s.split(sep)` for a one-character separator. -/
def splitOnChar (sep : Char) : PyStr → List PyStr
  | [] => [[]]
  | c :: rest =>
    match splitOnChar sep rest with
    | [] => [[]]
    | w :: ws => if c = sep then [] :: w :: ws else (c :: w) :: ws

/-- Bool test that `t` is an initial segment of `s`. -/
def listStartsWith : PyStr → PyStr → Bool
  | [], _ => true
  | _ :: _, [] => false
  | a :: t1, b :: s1 => a = b && listStartsWith t1 s1

/-- Embeds Python `s.endswith(t)`. -/
def listEndsWith (t s : PyStr) : Bool := listStartsWith t.reverse s.reverse

/-- The suffix `".csv"` tested by `Excavator.process_after_hours`. -/
def csvSuffix : PyStr := ['.', 'c', 's', 'v']

/-- Embeds the f-string `f"\x7bfile\x7d.gz"` target name of the archival step. -/
def gzName (n : PyStr) : PyStr := n ++ ['.', 'g', 'z']

/-- Embeds `file.endswith(".csv")`. -/
def endsWithCsv (n : PyStr) : Bool := listEndsWith csvSuffix n

/-! ### Data model -/

/-- One strike-detail object from the nested chain response (the element type of
the one-element lists stored under each strike). Float-valued price fields are
modelled as `Int`; no claim computes with them. -/
structure StrikeDetail where
  putCall : PyStr
  strikePrice : Int
  bid : Int
  ask : Int
  delta : Int
  gamma : Int
  theta : Int
  vega : Int
  rho : Int
  deriving DecidableEq, Repr

instance : Inhabited StrikeDetail := ⟨⟨[], 0, 0, 0, 0, 0, 0, 0, 0⟩⟩

/-- The flattened row built by `Excavator.process_strike`. -/
structure StrikeRecord where
  time : Nat
  symbol : PyStr
  underlyingPrice : Int
  volatility : Int
  strike : Int
  putCall : Char
  bid : Int
  ask : Int
  delta : Int
  gamma : Int
  theta : Int
  vega : Int
  rho : Int
  deriving DecidableEq, Repr

/-- The quote response used both as the `get_quote` result and as the
`vix["$VIX.X"]` entry (`status` is the field the retry claim talks about,
`lastPrice` the field `process_open_market` reads). -/
structure QuoteResp where
  status : PyStr
  lastPrice : Int
  deriving DecidableEq, Repr

/-- An expiration's strike map: strike-price key to one-element detail list. -/
abbrev StrikeMap := List (PyStr × List StrikeDetail)

/-- `putExpDateMap` / `callExpDateMap`: expiration key to strike map. -/
abbrev ExpDateMap := List (PyStr × StrikeMap)

/-- The raw option-chain response. `none` in an expiration-map field models a
JSON null there (the shape `process_open_market` tries to validate). -/
structure OptionChainResponse where
  status : PyStr
  putExpDateMap : Option ExpDateMap
  callExpDateMap : Option ExpDateMap
  underlyingPrice : Int
  deriving DecidableEq, Repr

/-- `GetMarketHoursResponseMessage` from broker/tda.py; the source field `end`
is a Lean keyword and is rendered `endTime`. -/
structure GetMarketHoursResponseMessage where
  start : Int
  endTime : Int
  isopen : Bool
  deriving DecidableEq, Repr

/-- One upstream attempt inside a retry loop: it either throws or returns. -/
inductive Attempt (α : Type) where
  | throws
  | returns (r : α)
  deriving DecidableEq, Repr

/-- What one embedded fetch call did: its result, how many upstream attempts it
made, and how many failures it logged. -/
structure FetchOutcome (α : Type) where
  result : Option α
  attemptsMade : Nat
  failuresLogged : Nat
  deriving DecidableEq, Repr

/-! ### ChainFlattener: process_strike / process_expiration (excavator.py 129-199) -/

/-- Embeds `Excavator.process_strike`: `now` is the fresh wall-clock reading
the source takes at the top of this call (one per strike), truncated to the
minute before being stamped on the record. `strike[0]` is modelled with a
default on the empty list (the upstream format always wraps exactly one
detail object). -/
def process_strike (now : Nat) (symbol : PyStr) (strike : List StrikeDetail)
    (underlying_price volatility : Int) : StrikeRecord :=
  let now_rounded := truncMinute now
  let d := strike.getD 0 default
  { time := now_rounded
    symbol := symbol
    underlyingPrice := underlying_price
    volatility := volatility
    strike := d.strikePrice
    putCall := if d.putCall = putWord then 'P' else 'C'
    bid := d.bid
    ask := d.ask
    delta := d.delta
    gamma := d.gamma
    theta := d.theta
    vega := d.vega
    rho := d.rho }

/-- The strike loop of `Excavator.process_expiration`: `clocks i` is the
wall-clock value the `i`-th `process_strike` call reads. -/
def process_expiration_go (clocks : Nat → Nat) (symbol : PyStr)
    (underlying_price volatility : Int) : Nat → StrikeMap → List StrikeRecord
  | _, [] => []
  | i, (_, det) :: rest =>
    process_strike (clocks i) symbol det underlying_price volatility ::
      process_expiration_go clocks symbol underlying_price volatility (i + 1) rest

/-- Embeds `Excavator.process_expiration` (the rows it builds for one
expiration; persisting them is `save_to_csv`). -/
def process_expiration (clocks : Nat → Nat) (symbol : PyStr)
    (expiration : PyStr × StrikeMap) (underlying_price volatility : Int) : List StrikeRecord :=
  process_expiration_go clocks symbol underlying_price volatility 0 expiration.2

/-! ### SessionScheduler: process_open_market (excavator.py 64-96) -/

/-- What one open-market iteration did. -/
inductive OpenMarketOutcome where
  | crashed (e : PyErr)
  | skipped
  | processed (batches : List (PyStr × List StrikeRecord))
  deriving DecidableEq, Repr

/-- The per-expiration loops of `process_open_market`: each iteration reads
`vix["$VIX.X"]["lastPrice"]`, so a `None` quote raises `TypeError` at the
first expiration. `clocks i j` is the clock value for strike `j` of the
expiration at position `i`. -/
def process_expirations (clocks : Nat → Nat → Nat) (i : Nat) (symbol : PyStr)
    (underlying_price : Int) (vix : Option QuoteResp) :
    ExpDateMap → Except PyErr (List (PyStr × List StrikeRecord))
  | [] => .ok []
  | (key, strikes) :: rest =>
    match vix with
    | none => .error .typeError
    | some v =>
      match process_expirations clocks (i + 1) symbol underlying_price vix rest with
      | .error e => .error e
      | .ok bs =>
        .ok ((key, process_expiration (clocks i) symbol (key, strikes)
              underlying_price v.lastPrice) :: bs)

/-- Embeds `Excavator.process_open_market`. The source validates the chain with
`any([option_chain is None, option_chain["callExpDateMap"] is None,
option_chain["callExpDateMap"] is None])`: the list is built eagerly, so a
`None` chain raises `TypeError` before `any` runs; the second and third
elements both test `callExpDateMap` (the put map is never validated), which the
duplicated `isNone` test below mirrors. A `None` put map then raises in
`dict(option_chain["putExpDateMap"])`. -/
def process_open_market (option_chain : Option OptionChainResponse)
    (vix : Option QuoteResp) (symbol : PyStr) (clocks : Nat → Nat → Nat) : OpenMarketOutcome :=
  match option_chain with
  | none => .crashed .typeError
  | some oc =>
    if oc.callExpDateMap.isNone || oc.callExpDateMap.isNone then .skipped
    else
      match oc.putExpDateMap with
      | none => .crashed .typeError
      | some putMap =>
        match process_expirations clocks 0 symbol oc.underlyingPrice vix putMap with
        | .error e => .crashed e
        | .ok putBatches =>
          match oc.callExpDateMap with
          | none => .crashed .typeError
          | some callMap =>
            match process_expirations clocks putMap.length symbol oc.underlyingPrice vix callMap with
            | .error e => .crashed e
            | .ok callBatches => .processed (putBatches ++ callBatches)

/-! ### ChainFetcher retry loops (broker/tda.py 54-131) -/

/-- The `for attempt in range(3)` loop of `TdaBroker.get_option_chain`:
an attempt that throws, or returns a response whose `status` equals
`"FAILED"`, is logged and retried; on `attempt == 3 - 1` the call returns
`None`. `remaining` is the number of loop iterations left (`3 - attempt`). -/
def get_option_chain_go (attempts : Nat → Attempt OptionChainResponse)
    (attempt logged : Nat) : Nat → FetchOutcome OptionChainResponse
  | 0 => ⟨none, attempt, logged⟩
  | remaining + 1 =>
    match attempts attempt with
    | .returns r =>
      if r.status = failedStatus then
        if attempt = 2 then ⟨none, attempt + 1, logged + 1⟩
        else get_option_chain_go attempts (attempt + 1) (logged + 1) remaining
      else ⟨some r, attempt + 1, logged⟩
    | .throws =>
      if attempt = 2 then ⟨none, attempt + 1, logged + 1⟩
      else get_option_chain_go attempts (attempt + 1) (logged + 1) remaining

/-- Embeds `TdaBroker.get_option_chain` from the retry loop on (the
pre-loop request validation short-circuits to `None` before any attempt). -/
def get_option_chain (attempts : Nat → Attempt OptionChainResponse) :
    FetchOutcome OptionChainResponse :=
  get_option_chain_go attempts 0 0 3

/-- The shared `for attempt in range(3): try ... break except ...` shape of
`TdaBroker.get_quote` and of the fetch loop in `TdaBroker.get_market_hours`:
only a thrown attempt counts as a failure; any returned response breaks out of
the loop and is the result. -/
def retry_fetch_go {α : Type} (attempts : Nat → Attempt α)
    (attempt logged : Nat) : Nat → FetchOutcome α
  | 0 => ⟨none, attempt, logged⟩
  | remaining + 1 =>
    match attempts attempt with
    | .returns r => ⟨some r, attempt + 1, logged⟩
    | .throws =>
      if attempt = 2 then ⟨none, attempt + 1, logged + 1⟩
      else retry_fetch_go attempts (attempt + 1) (logged + 1) remaining

/-- Embeds `TdaBroker.get_quote`: note it performs no `status` check on a
returned response. -/
def get_quote (attempts : Nat → Attempt QuoteResp) : FetchOutcome QuoteResp :=
  retry_fetch_go attempts 0 0 3

/-! ### get_market_hours / process_session_hours (broker/tda.py 84-140) -/

/-- A product's details inside the market-hours response; `μ` is the
(opaque) type of the raw `markethours` session values. -/
structure ProductDetails (μ : Type) where
  sessionHours : List (PyStr × μ)
  deriving DecidableEq, Repr

/-- The raw `get_market_hours` payload: market type to (product type to
details). -/
abbrev MarketHoursRaw (μ : Type) := List (PyStr × List (PyStr × ProductDetails μ))

/-- The inner loop of the product search in `TdaBroker.get_market_hours`:
first entry of one market whose product type equals the request's product. -/
def findProductIn {μ : Type} (product : PyStr) :
    List (PyStr × ProductDetails μ) → Option (ProductDetails μ)
  | [] => none
  | (ty, det) :: r => if ty = product then some det else findProductIn product r

/-- The nested product search of `TdaBroker.get_market_hours`: first entry in
any market whose product type equals the request's product. -/
def findProductDetails {μ : Type} (product : PyStr) : MarketHoursRaw μ → Option (ProductDetails μ)
  | [] => none
  | (_, prods) :: rest =>
    match findProductIn product prods with
    | some d => some d
    | none => findProductDetails product rest

/-- The loop body of `TdaBroker.process_session_hours`: `response` is assigned
each time a `"regularMarket"` key is seen; the accumulator is the current value
of the (possibly still unassigned) local variable. `build` abstracts
`build_market_hours_response` (datetime parsing delegated to the library). -/
def pshLoop {μ : Type} (build : μ → GetMarketHoursResponseMessage) :
    List (PyStr × μ) → Option GetMarketHoursResponseMessage → Option GetMarketHoursResponseMessage
  | [], acc => acc
  | (session, markethours) :: rest, acc =>
    pshLoop build rest (if session = regularMarketKey then some (build markethours) else acc)

/-- Embeds `TdaBroker.process_session_hours`: reaching `return response` with
the local never assigned raises `UnboundLocalError`. -/
def process_session_hours {μ : Type} (build : μ → GetMarketHoursResponseMessage)
    (sessionhours : List (PyStr × μ)) : Except PyErr GetMarketHoursResponseMessage :=
  match pshLoop build sessionhours none with
  | some response => .ok response
  | none => .error .unboundLocalError

/-- Embeds `TdaBroker.get_market_hours`: the retry loop wraps only the upstream
fetch; `process_session_hours` is called outside it, so an exception there
propagates to the caller instead of being retried. -/
def get_market_hours {μ : Type} (attempts : Nat → Attempt (MarketHoursRaw μ))
    (product : PyStr) (build : μ → GetMarketHoursResponseMessage) :
    Except PyErr (Option GetMarketHoursResponseMessage) :=
  match (retry_fetch_go attempts 0 0 3).result with
  | none => .ok none
  | some hours =>
    match findProductDetails product hours with
    | none => .ok none
    | some details =>
      match process_session_hours build details.sessionHours with
      | .error e => .error e
      | .ok response => .ok (some response)

/-! ### MarketHoursResolver: get_next_market_hours (excavator.py 204-219) -/

/-- Embeds `Excavator.get_next_market_hours`. `resolve d` is what
`broker.get_market_hours` yields for the query date `d` (dates as day
offsets), `nowAt d` the fresh `dt.datetime.now(US/Eastern)` read in the
invocation that queried `d`. The source recursion is unbounded; `fuel`
makes it structural, with `none` standing for non-termination within the
modelled horizon. -/
def get_next_market_hours (resolve : Nat → Option GetMarketHoursResponseMessage)
    (nowAt : Nat → Int) : Nat → Nat → Option GetMarketHoursResponseMessage
  | 0, _ => none
  | fuel + 1, date =>
    match resolve date with
    | none => get_next_market_hours resolve nowAt fuel (date + 1)
    | some hours =>
      if hours.endTime < nowAt date then get_next_market_hours resolve nowAt fuel (date + 1)
      else some hours

/-! ### SessionScheduler: dig / process_closed_market / iteration_sleep -/

/-- Which branch one iteration of the `while True` loop in `Excavator.dig`
takes. -/
inductive DigAction where
  | closedMarket
  | openMarket
  | neither
  deriving DecidableEq, Repr

/-- Embeds the branch selection of `Excavator.dig`:
`if now < start or end < now: closed; elif start < now < end: open` —
with no `else`, so an iteration can take neither branch. -/
def dig_branch (market_hours : GetMarketHoursResponseMessage) (now : Int) : DigAction :=
  if now < market_hours.start ∨ market_hours.endTime < now then .closedMarket
  else if market_hours.start < now ∧ now < market_hours.endTime then .openMarket
  else .neither

/-- What `Excavator.process_closed_market` did: how many times the after-hours
archival ran, which session it ended up holding, and the computed sleep. -/
structure ClosedMarketOutcome where
  archivalRuns : Nat
  session : GetMarketHoursResponseMessage
  sleepSeconds : Int
  deriving DecidableEq, Repr

/-- Embeds `Excavator.process_closed_market`: if the session's start is in the
past, run `process_after_hours` once and re-resolve (`next_hours` is what
`get_next_market_hours` returns); then sleep `(start - now) + 15` seconds
against the (possibly re-resolved) session. Times in seconds here, matching
`total_seconds()`. -/
def process_closed_market (market_hours : GetMarketHoursResponseMessage) (now : Int)
    (next_hours : GetMarketHoursResponseMessage) : ClosedMarketOutcome :=
  if market_hours.start < now then
    { archivalRuns := 1
      session := next_hours
      sleepSeconds := next_hours.start - now + 15 }
  else
    { archivalRuns := 0
      session := market_hours
      sleepSeconds := market_hours.start - now + 15 }

/-- The `next_interval` of `Excavator.iteration_sleep`: now truncated to the
minute plus `data_interval` minutes (microsecond timestamps). -/
def iteration_next_interval (now : Nat) (data_interval : Nat) : Nat :=
  truncMinute now + data_interval * usPerMinute

/-- The sleep duration of `Excavator.iteration_sleep` in microseconds
(`(next_interval - now).total_seconds()` up to the fixed unit). -/
def iteration_sleep_duration (now : Nat) (data_interval : Nat) : Int :=
  (iteration_next_interval now data_interval : Int) - (now : Int)

/-! ### Persistence: save_to_csv / get_output_path (excavator.py 146-166, 243-249) -/

/-- Embeds `self.symbol.replace("$", "").split(".")`. -/
def ticker_parts (symbol : PyStr) : List PyStr := splitOnChar '.' (removeChar '$' symbol)

/-- Embeds the `exp_date` f-string of `save_to_csv`:
`expiration.split(":")[0].split("-")` concatenating parts 0, 1, 2 (index
accesses modelled with `getD`; every claim instantiates a well-formed key). -/
def exp_date_of (expiration : PyStr) : PyStr :=
  let parts := splitOnChar '-' ((splitOnChar ':' expiration).getD 0 [])
  parts.getD 0 [] ++ parts.getD 1 [] ++ parts.getD 2 []

/-- The `%Y`, `%m`, `%d` strings of the current day, as read by
`get_output_path`. -/
structure DateParts where
  year : PyStr
  month : PyStr
  day : PyStr
  deriving DecidableEq, Repr

/-- Embeds `Excavator.get_output_path`:
`f"\x7bos.curdir\x7d/results/\x7bticker[0]\x7d/\x7byear\x7d/\x7byear\x7d\x7bmonth\x7d\x7bday\x7d"`. -/
def get_output_path (symbol : PyStr) (today : DateParts) : PyStr :=
  ['.', '/', 'r', 'e', 's', 'u', 'l', 't', 's', '/'] ++ (ticker_parts symbol).getD 0 [] ++
    '/' :: today.year ++ '/' :: (today.year ++ today.month ++ today.day)

/-- The observable effect of one `save_to_csv` call. -/
structure CsvWrite where
  folder : PyStr
  fileName : PyStr
  header : Bool
  deriving DecidableEq, Repr

/-- Embeds `Excavator.save_to_csv`: rows are appended (`mode="a"`) to
`folder/ticker[0].expdate.csv`, with `header=not os.path.exists(output_path)`;
`existing` is the set of paths present on disk. -/
def save_to_csv (symbol expiration : PyStr) (today : DateParts)
    (existing : List PyStr) : CsvWrite :=
  let exp_date := exp_date_of expiration
  let folder_path := get_output_path symbol today
  let file_name := (ticker_parts symbol).getD 0 [] ++ '.' :: exp_date ++ ['.', 'c', 's', 'v']
  let output_path := folder_path ++ '/' :: file_name
  { folder := folder_path
    fileName := file_name
    header := if output_path ∈ existing then false else true }

/-- The ticker derivation as claim C7 words it: the symbol with the leading
`"$"` removed, taken before the first `"."`. -/
def tickerSpecLeading (symbol : PyStr) : PyStr :=
  (match symbol with
   | '$' :: rest => rest
   | s => s).takeWhile (fun c => c != '.')

/-- The ticker the code actually derives, worded independently: every `"$"`
removed, then the part before the first `"."`. -/
def tickerSpecAllDollars (symbol : PyStr) : PyStr :=
  (symbol.filter (fun c => c != '$')).takeWhile (fun c => c != '.')

/-! ### Archiver: process_after_hours (excavator.py 115-124) -/

/-- A directory as an association list from file name to content. -/
abbrev Dir := List (PyStr × List Char)

/-- First-match lookup of a file's content. -/
def lookupFile : Dir → PyStr → Option (List Char)
  | [], _ => none
  | (m, c) :: rest, n => if m = n then some c else lookupFile rest n

/-- Create-or-truncate write of a file (`gzip.open(..., "wb")`). -/
def setFile : Dir → PyStr → List Char → Dir
  | [], n, c => [(n, c)]
  | (m, d) :: rest, n, c => if m = n then (n, c) :: rest else (m, d) :: setFile rest n c

/-- The `for file in os.listdir(output_path)` loop of
`Excavator.process_after_hours`: `snapshot` is the fixed listing taken before
the loop; each `.csv` file's current content is read and its compression is
written to the sibling `file + ".gz"`. `compress` abstracts the external gzip
collaborator. -/
def process_after_hours_go (compress : List Char → List Char) :
    List PyStr → Dir → Dir
  | [], d => d
  | n :: rest, d =>
    if endsWithCsv n then
      process_after_hours_go compress rest
        (setFile d (gzName n) (compress ((lookupFile d n).getD [])))
    else
      process_after_hours_go compress rest d

/-- Embeds `Excavator.process_after_hours` on the day's output folder. -/
def process_after_hours (compress : List Char → List Char) (d : Dir) : Dir :=
  process_after_hours_go compress (d.map Prod.fst) d

/-- An upstream chain attempt that `get_option_chain` treats as a failure:
it throws, or it returns a response whose `status` equals `"FAILED"`. -/
def chainFailure (a : Attempt OptionChainResponse) : Prop :=
  a = .throws ∨ ∃ r, a = .returns r ∧ r.status = failedStatus

/-! ### Concrete instances for witnesses and counterexamples -/

/-- A strike-detail object for the C1 evaluation. -/
def c1Detail : StrikeDetail := ⟨putWord, 4000, 1, 2, 0, 0, 0, 0, 0⟩

/-- A present volatility quote for the C1 evaluation. -/
def c1Vix : QuoteResp := ⟨[], 15⟩

/-- A chain whose `putExpDateMap` is null (but `callExpDateMap` present). -/
def c1ChainPutNull : OptionChainResponse := ⟨[], none, some [], 4000⟩

/-- A chain whose `callExpDateMap` is null. -/
def c1ChainCallNull : OptionChainResponse := ⟨[], some [], none, 4000⟩

/-- A well-formed chain with one put expiration holding one strike. -/
def c1ChainOk : OptionChainResponse :=
  ⟨[], some [(['k'], [(['s'], [c1Detail])])], some [], 4000⟩

/-- A constant clock for the C1 evaluation. -/
def c1Clocks : Nat → Nat → Nat := fun _ _ => 0

/-- A C2 strike map with two strikes. -/
def c2Strikes : StrikeMap :=
  [(['a'], [⟨putWord, 4000, 1, 2, 0, 0, 0, 0, 0⟩]), (['b'], [⟨putWord, 4010, 1, 2, 0, 0, 0, 0, 0⟩])]

/-- A clock that crosses a minute boundary between the two strikes of one
batch: the first read is at 59 s, the second at 60 s. -/
def c2CexClocks : Nat → Nat := fun i => 59000000 + i * 1000000

/-- A clock whose reads all stay inside one minute. -/
def c2SameMinuteClocks : Nat → Nat := fun i => 30000000 + i * 1000000

/-- A quote response carrying status `"FAILED"`. -/
def c3FailedQuote : QuoteResp := ⟨failedStatus, 0⟩

/-- Quote attempts that all return the `"FAILED"`-status response. -/
def c3QuoteFailedAttempts : Nat → Attempt QuoteResp := fun _ => .returns c3FailedQuote

/-- Chain attempts that all throw. -/
def c3ChainThrowAttempts : Nat → Attempt OptionChainResponse := fun _ => .throws

/-- A chain response whose status is not `"FAILED"`. -/
def c3ChainOkResp : OptionChainResponse := ⟨['O', 'K'], some [], some [], 0⟩

/-- Chain attempts that immediately return the healthy response. -/
def c3ChainOkAttempts : Nat → Attempt OptionChainResponse := fun _ => .returns c3ChainOkResp

/-- Quote attempts that all throw. -/
def c3QuoteThrowAttempts : Nat → Attempt QuoteResp := fun _ => .throws

/-- A healthy quote response. -/
def c3QuoteOkResp : QuoteResp := ⟨['O', 'K'], 17⟩

/-- Quote attempts that immediately return the healthy response. -/
def c3QuoteOkAttempts : Nat → Attempt QuoteResp := fun _ => .returns c3QuoteOkResp

/-- A session used by the C4 witness (09:30-16:00 as minutes of day). -/
def c4Session : GetMarketHoursResponseMessage := ⟨570, 960, true⟩

/-- An upstream that has no session on day 0 and the session on day 1. -/
def c4Resolve : Nat → Option GetMarketHoursResponseMessage :=
  fun d => if d = 1 then some c4Session else none

/-- The clock the C4 witness resolver compares against. -/
def c4NowAt : Nat → Int := fun _ => 0

/-- A session that closed before the C5 witness's `now = 300`. -/
def c5Past : GetMarketHoursResponseMessage := ⟨100, 200, true⟩

/-- The re-resolved next session for the C5 witness. -/
def c5Next : GetMarketHoursResponseMessage := ⟨1000, 2000, true⟩

/-- The symbol `"$SPX.X"` as configured by default. -/
def c7Symbol : PyStr := ['$', 'S', 'P', 'X', '.', 'X']

/-- Date parts of the C7 witness key `"2024-03-15:7"`. -/
def c7Y : PyStr := ['2', '0', '2', '4']

/-- Month part of the C7 witness key. -/
def c7M : PyStr := ['0', '3']

/-- Day part of the C7 witness key. -/
def c7D : PyStr := ['1', '5']

/-- Days-to-expiration part of the C7 witness key. -/
def c7Dte : PyStr := ['7']

/-- The current-day parts used by the C7 witness. -/
def c7Today : DateParts := ⟨c7Y, c7M, c7D⟩

/-- A symbol with a non-leading `"$"`, distinguishing the code's
remove-every-dollar from the claim's strip-leading-dollar. -/
def c7CexSymbol : PyStr := ['A', '$', 'B', '.', 'X']

/-- The expiration key `"2024-03-15:7"` as a literal. -/
def c7CexKey : PyStr := ['2', '0', '2', '4', '-', '0', '3', '-', '1', '5', ':', '7']

/-- A `.csv` source file name. -/
def c8CsvName : PyStr := ['a', '.', 'c', 's', 'v']

/-- A pre-existing `.csv.gz` file whose name collides with the archival
target of `c8CsvName`. -/
def c8GzExisting : PyStr := ['a', '.', 'c', 's', 'v', '.', 'g', 'z']

/-- The day's folder for the C8 counterexample: one `.csv` plus a stale
pre-existing `.csv.gz` with different content. -/
def c8CexDir : Dir := [(c8CsvName, ['1']), (c8GzExisting, ['2'])]

/-- The day's folder for the C8 witness. -/
def c8WDir : Dir := [(['b', '.', 'c', 's', 'v'], ['x', 'y'])]

/-- A session with distinct start and end for the C9 boundary analysis. -/
def c9Session : GetMarketHoursResponseMessage := ⟨5700, 9600, true⟩

/-- The abstracted `build_market_hours_response` for the C10 witness. -/
def c10Build : Unit → GetMarketHoursResponseMessage := fun _ => ⟨0, 0, false⟩

/-- Product details whose `sessionHours` has no `"regularMarket"` key. -/
def c10Details : ProductDetails Unit :=
  ⟨[(['p', 'r', 'e', 'M', 'a', 'r', 'k', 'e', 't'], ())]⟩

/-- A market-hours payload containing the requested product `"IND"`. -/
def c10Hours : MarketHoursRaw Unit :=
  [(['o', 'p', 't', 'i', 'o', 'n'], [(['I', 'N', 'D'], c10Details)])]

/-- Upstream attempts that succeed immediately with `c10Hours`. -/
def c10Attempts : Nat → Attempt (MarketHoursRaw Unit) := fun _ => .returns c10Hours

/-! ## Theorems -/

/-- Claim C1 (code bug evaluation): where the spec says a missing or malformed
chain or quote is logged and skipped without crashing, the code crashes: a
`None` chain raises `TypeError` while eagerly building the `any([...])`
argument list, a null `putExpDateMap` raises in `dict(None)` because only
`callExpDateMap` is tested (twice), and a `None` volatility quote raises at
`vix["$VIX.X"]` once any expiration is iterated. Only a null `callExpDateMap`
takes the intended log-and-skip path. -/
theorem process_open_market_crash_eval :
    process_open_market none (some c1Vix) [] c1Clocks = .crashed .typeError ∧
    process_open_market (some c1ChainPutNull) (some c1Vix) [] c1Clocks = .crashed .typeError ∧
    process_open_market (some c1ChainOk) none [] c1Clocks = .crashed .typeError ∧
    process_open_market (some c1ChainCallNull) (some c1Vix) [] c1Clocks = .skipped :=
  ⟨rfl, rfl, rfl, rfl⟩

/-- Claim C5: on a closed market whose session start is already past, the
after-hours archival runs exactly once, the session is re-resolved, and the
sleep is exactly `(start - now) + 15` seconds against the session being slept
towards — so the wake-up instant is always that session's start plus 15
seconds. -/
theorem process_closed_market_spec (mh next : GetMarketHoursResponseMessage) (now : Int) :
    (mh.start < now →
      process_closed_market mh now next = ⟨1, next, next.start - now + 15⟩) ∧
    (¬ mh.start < now →
      process_closed_market mh now next = ⟨0, mh, mh.start - now + 15⟩) ∧
    now + (process_closed_market mh now next).sleepSeconds =
      (process_closed_market mh now next).session.start + 15 := by
  unfold process_closed_market
  by_cases h : mh.start < now <;> simp [h] <;> ring

/-- Witness for C5 at `now = 300` past the session start `100`: archival runs
once, the next session is adopted, and the sleep is `1000 - 300 + 15`. -/
theorem process_closed_market_spec_witness :
    process_closed_market c5Past 300 c5Next = ⟨1, c5Next, c5Next.start - 300 + 15⟩ :=
  (process_closed_market_spec c5Past c5Next 300).1 (by decide)

/-- Claim C6: after an open-market iteration the computed wake-up time is the
current time truncated to the minute plus the polling interval — a wall-clock
minute boundary (zero microseconds past a minute); for `interval = 1` it is
the top of the next minute (the least minute boundary strictly after `now`,
at most one minute away), so the cadence is wall-clock aligned and does not
drift. -/
theorem iteration_sleep_alignment (now data_interval : Nat) :
    iteration_next_interval now data_interval % usPerMinute = 0 ∧
    iteration_next_interval now data_interval = truncMinute now + data_interval * usPerMinute ∧
    (now : Int) + iteration_sleep_duration now data_interval =
      (iteration_next_interval now data_interval : Int) ∧
    now < iteration_next_interval now 1 ∧
    iteration_next_interval now 1 ≤ now + usPerMinute := by
  refine ⟨?_, rfl, by unfold iteration_sleep_duration; ring, ?_, ?_⟩ <;>
    unfold iteration_next_interval truncMinute usPerMinute <;> omega

/-- Claim C9 (counterexample): at the boundary instant `now = start` the
`dig` loop takes neither the open-market nor the closed-market branch (and
likewise at `now = end`), contradicting the claim that boundary instants are
handled as open. -/
theorem dig_boundary_cex :
    dig_branch c9Session 5700 = .neither ∧
    dig_branch c9Session 9600 = .neither ∧
    DigAction.neither ≠ DigAction.openMarket := by
  refine ⟨rfl, rfl, by decide⟩

/-- Claim C9 (amended): the `dig` loop performs an open-market iteration
exactly when `start < now < end` (strictly), takes the closed-market path
exactly when `now < start` or `now > end`, and at the boundary instants
`now = start` or `now = end` (for a session with `start <= end`) takes
neither path, doing nothing for that iteration. -/
theorem dig_branch_spec (mh : GetMarketHoursResponseMessage) (now : Int)
    (hse : mh.start ≤ mh.endTime) :
    (dig_branch mh now = .openMarket ↔ mh.start < now ∧ now < mh.endTime) ∧
    (dig_branch mh now = .closedMarket ↔ (now < mh.start ∨ mh.endTime < now)) ∧
    ((now = mh.start ∨ now = mh.endTime) → dig_branch mh now = .neither) := by
  unfold dig_branch
  split_ifs with h1 h2 <;> refine ⟨?_, ?_, ?_⟩ <;> simp_all <;> omega

/-- Witness for C9's amended statement at the session `⟨5700, 9600⟩` and
`now = 5700`. -/
theorem dig_branch_spec_witness :
    (dig_branch c9Session 5700 = .openMarket ↔
      c9Session.start < 5700 ∧ (5700 : Int) < c9Session.endTime) ∧
    (dig_branch c9Session 5700 = .closedMarket ↔
      ((5700 : Int) < c9Session.start ∨ c9Session.endTime < 5700)) ∧
    (((5700 : Int) = c9Session.start ∨ (5700 : Int) = c9Session.endTime) →
      dig_branch c9Session 5700 = .neither) :=
  dig_branch_spec c9Session 5700 (by decide)

/-- The times stamped by the strike loop are exactly the per-strike clock
reads, each truncated to its own minute. -/
theorem process_expiration_go_map_time (clocks : Nat → Nat) (symbol : PyStr)
    (up vol : Int) :
    ∀ (l : StrikeMap) (i0 : Nat),
      (process_expiration_go clocks symbol up vol i0 l).map StrikeRecord.time =
        (List.range l.length).map (fun k => truncMinute (clocks (i0 + k))) := by
  intro l
  induction l with
  | nil => intro i0; rfl
  | cons p rest ih =>
    intro i0
    obtain ⟨key, det⟩ := p
    simp only [process_expiration_go, List.map_cons, List.length_cons,
      List.range_succ_eq_map, List.map_map, ih (i0 + 1)]
    refine congrArg₂ List.cons (by simp [process_strike]) ?_
    refine List.map_congr_left fun k _ => ?_
    simp [Function.comp]
    ring_nf

/-- Every record the strike loop emits at base index `i0` over `l` has a time
equal to the common value `c0` whenever each in-range clock read truncates to
`c0`. -/
theorem process_expiration_go_time_mem (clocks : Nat → Nat) (symbol : PyStr)
    (up vol : Int) (c0 : Nat) :
    ∀ (l : StrikeMap) (i0 : Nat),
      (∀ k, k < l.length → truncMinute (clocks (i0 + k)) = c0) →
      ∀ r ∈ process_expiration_go clocks symbol up vol i0 l, r.time = c0 := by
  intro l
  induction l with
  | nil => intro i0 _ r hr; cases hr
  | cons p rest ih =>
    intro i0 hk r hr
    obtain ⟨key, det⟩ := p
    rcases List.mem_cons.1 hr with rfl | hmem
    · have := hk 0 (by simp)
      simpa [process_strike] using this
    · refine ih (i0 + 1) (fun k hk2 => ?_) r hmem
      have := hk (k + 1) (by simpa using Nat.succ_lt_succ hk2)
      simpa [Nat.add_assoc, Nat.add_comm 1 k] using this

/-- Claim C2 (counterexample): with the wall clock advancing from 59 s to
60 s between the two strikes of one flattener call, the two records of that
single call carry different `Time` values (minute 0 and minute 1), so the
records of one batch are not all stamped identically. -/
theorem process_expiration_time_cex :
    (process_expiration c2CexClocks [] (['e'], c2Strikes) 4000 15).map
        StrikeRecord.time = [0, usPerMinute] ∧
    ¬ List.Pairwise (fun a b => a = b)
        ((process_expiration c2CexClocks [] (['e'], c2Strikes) 4000 15).map
          StrikeRecord.time) := by
  refine ⟨rfl, by decide⟩

/-- Claim C2 (amended): each `StrikeRecord` of one flattener call carries the
wall-clock time read at that strike's own processing, truncated to the minute
(seconds and sub-seconds zeroed); all records of the call share one identical
`Time` exactly when every per-strike clock read falls in the same minute —
the code re-reads the clock per strike, so identity is not guaranteed across
a minute boundary. -/
theorem process_expiration_time_per_strike (clocks : Nat → Nat) (symbol : PyStr)
    (expiration : PyStr × StrikeMap) (up vol : Int)
    (hsame : ∀ i, i < expiration.2.length →
      truncMinute (clocks i) = truncMinute (clocks 0)) :
    (process_expiration clocks symbol expiration up vol).map StrikeRecord.time =
      (List.range expiration.2.length).map (fun i => truncMinute (clocks i)) ∧
    ∀ r ∈ process_expiration clocks symbol expiration up vol,
      r.time = truncMinute (clocks 0) := by
  constructor
  · simpa using process_expiration_go_map_time clocks symbol up vol expiration.2 0
  · exact process_expiration_go_time_mem clocks symbol up vol
      (truncMinute (clocks 0)) expiration.2 0 (fun k hk => by simpa using hsame k hk)

/-- Witness for C2's amended statement: a two-strike batch whose clock reads
stay inside one minute has all times equal to the first read's minute. -/
theorem process_expiration_time_per_strike_witness :
    (process_expiration c2SameMinuteClocks [] (['e'], c2Strikes) 4000 15).map
        StrikeRecord.time =
      (List.range c2Strikes.length).map (fun i => truncMinute (c2SameMinuteClocks i)) ∧
    ∀ r ∈ process_expiration c2SameMinuteClocks [] (['e'], c2Strikes) 4000 15,
      r.time = truncMinute (c2SameMinuteClocks 0) :=
  process_expiration_time_per_strike c2SameMinuteClocks [] (['e'], c2Strikes) 4000 15
    (by intro i hi; simp only [c2Strikes, List.length_cons, List.length_nil] at hi;
        interval_cases i <;> rfl)

/-- A failing chain attempt before the last one logs and moves to the next
attempt. -/
theorem get_option_chain_go_failure_step (attempts : Nat → Attempt OptionChainResponse)
    (attempt logged remaining : Nat) (h : chainFailure (attempts attempt))
    (hne : ¬ attempt = 2) :
    get_option_chain_go attempts attempt logged (remaining + 1) =
      get_option_chain_go attempts (attempt + 1) (logged + 1) remaining := by
  rcases h with h | ⟨r, h, hs⟩
  · simp [get_option_chain_go, h, hne]
  · simp [get_option_chain_go, h, hs, hne]

/-- A failing chain attempt at `attempt == 2` logs and returns `None`. -/
theorem get_option_chain_go_failure_last (attempts : Nat → Attempt OptionChainResponse)
    (logged remaining : Nat) (h : chainFailure (attempts 2)) :
    get_option_chain_go attempts 2 logged (remaining + 1) = ⟨none, 3, logged + 1⟩ := by
  rcases h with h | ⟨r, h, hs⟩
  · simp [get_option_chain_go, h]
  · simp [get_option_chain_go, h, hs]

/-- A chain attempt that returns with a status other than `"FAILED"` is
returned immediately. -/
theorem get_option_chain_go_success (attempts : Nat → Attempt OptionChainResponse)
    (attempt logged remaining : Nat) (r : OptionChainResponse)
    (h : attempts attempt = .returns r) (hs : ¬ r.status = failedStatus) :
    get_option_chain_go attempts attempt logged (remaining + 1) =
      ⟨some r, attempt + 1, logged⟩ := by
  simp [get_option_chain_go, h, hs]

/-- A throwing attempt before the last one, in the break-on-return loops. -/
theorem retry_fetch_go_throw_step {α : Type} (attempts : Nat → Attempt α)
    (attempt logged remaining : Nat) (h : attempts attempt = .throws)
    (hne : ¬ attempt = 2) :
    retry_fetch_go attempts attempt logged (remaining + 1) =
      retry_fetch_go attempts (attempt + 1) (logged + 1) remaining := by
  simp [retry_fetch_go, h, hne]

/-- A throwing attempt at `attempt == 2` returns `None`. -/
theorem retry_fetch_go_throw_last {α : Type} (attempts : Nat → Attempt α)
    (logged remaining : Nat) (h : attempts 2 = .throws) :
    retry_fetch_go attempts 2 logged (remaining + 1) = ⟨none, 3, logged + 1⟩ := by
  simp [retry_fetch_go, h]

/-- Any returned response breaks the loop and is the result — with no status
check. -/
theorem retry_fetch_go_return {α : Type} (attempts : Nat → Attempt α)
    (attempt logged remaining : Nat) (r : α) (h : attempts attempt = .returns r) :
    retry_fetch_go attempts attempt logged (remaining + 1) = ⟨some r, attempt + 1, logged⟩ := by
  simp [retry_fetch_go, h]

/-- Claim C3 (counterexample): a quote fetch whose every upstream attempt
returns a response with status `"FAILED"` is not attempted 3 times and does
not yield `none` — `get_quote` performs no status check, so the first
attempt's `"FAILED"` response is returned as a success after exactly one
attempt with nothing logged. -/
theorem get_quote_failed_status_cex :
    get_quote c3QuoteFailedAttempts = ⟨some c3FailedQuote, 1, 0⟩ ∧
    get_quote c3QuoteFailedAttempts ≠ ⟨none, 3, 3⟩ := by
  refine ⟨rfl, by decide⟩

/-- Claim C3 (amended): for the option-chain fetch, an attempt that throws or
returns a `"FAILED"`-status response is a logged failure: three such attempts
yield `none` after exactly 3 attempts and 3 logged failures, never raising,
and the first healthy response is returned immediately. For the quote fetch
only a thrown attempt is a failure: three throws yield `none` after exactly 3
attempts, each logged, while any returned response — `"FAILED"` status
included — is returned immediately on its attempt. -/
theorem fetch_retry_spec :
    (∀ attempts : Nat → Attempt OptionChainResponse,
      (∀ i, i < 3 → chainFailure (attempts i)) →
      get_option_chain attempts = ⟨none, 3, 3⟩) ∧
    (∀ (attempts : Nat → Attempt OptionChainResponse) (r : OptionChainResponse),
      attempts 0 = .returns r → ¬ r.status = failedStatus →
      get_option_chain attempts = ⟨some r, 1, 0⟩) ∧
    (∀ attempts : Nat → Attempt QuoteResp,
      (∀ i, i < 3 → attempts i = .throws) →
      get_quote attempts = ⟨none, 3, 3⟩) ∧
    (∀ (attempts : Nat → Attempt QuoteResp) (q : QuoteResp),
      attempts 0 = .returns q → get_quote attempts = ⟨some q, 1, 0⟩) := by
  refine ⟨?_, ?_, ?_, ?_⟩
  · intro attempts h
    calc get_option_chain_go attempts 0 0 3
        = get_option_chain_go attempts 1 1 2 :=
          get_option_chain_go_failure_step attempts 0 0 2 (h 0 (by omega)) (by omega)
      _ = get_option_chain_go attempts 2 2 1 :=
          get_option_chain_go_failure_step attempts 1 1 1 (h 1 (by omega)) (by omega)
      _ = ⟨none, 3, 3⟩ :=
          get_option_chain_go_failure_last attempts 2 0 (h 2 (by omega))
  · intro attempts r h hs
    exact get_option_chain_go_success attempts 0 0 2 r h hs
  · intro attempts h
    calc retry_fetch_go attempts 0 0 3
        = retry_fetch_go attempts 1 1 2 :=
          retry_fetch_go_throw_step attempts 0 0 2 (h 0 (by omega)) (by omega)
      _ = retry_fetch_go attempts 2 2 1 :=
          retry_fetch_go_throw_step attempts 1 1 1 (h 1 (by omega)) (by omega)
      _ = ⟨none, 3, 3⟩ := retry_fetch_go_throw_last attempts 2 0 (h 2 (by omega))
  · intro attempts q h
    exact retry_fetch_go_return attempts 0 0 2 q h

/-- Witness for C3's amended statement: always-throwing chain attempts make 3
logged attempts then `none`, a healthy first chain response returns after 1
attempt, always-throwing quote attempts make 3 logged attempts then `none`,
and the first returned quote comes back after 1 attempt. -/
theorem fetch_retry_spec_witness :
    get_option_chain c3ChainThrowAttempts = ⟨none, 3, 3⟩ ∧
    get_option_chain c3ChainOkAttempts = ⟨some c3ChainOkResp, 1, 0⟩ ∧
    get_quote c3QuoteThrowAttempts = ⟨none, 3, 3⟩ ∧
    get_quote c3QuoteOkAttempts = ⟨some c3QuoteOkResp, 1, 0⟩ :=
  ⟨fetch_retry_spec.1 c3ChainThrowAttempts (fun i _ => Or.inl rfl),
   fetch_retry_spec.2.1 c3ChainOkAttempts c3ChainOkResp rfl (by decide),
   fetch_retry_spec.2.2.1 c3QuoteThrowAttempts (fun i _ => rfl),
   fetch_retry_spec.2.2.2 c3QuoteOkAttempts c3QuoteOkResp rfl⟩

/-- Claim C4: whenever `get_next_market_hours` returns a session, that session
came from some queried day `d` at or after the starting date, its end is not
strictly before the `now` read in the invocation that returned it, and every
earlier queried day yielded either no session or a session whose end had
already passed — the resolver rolls forward past stale days and returns the
first fresh session. -/
theorem get_next_market_hours_first_fresh
    (resolve : Nat → Option GetMarketHoursResponseMessage) (nowAt : Nat → Int)
    (fuel date : Nat) (s : GetMarketHoursResponseMessage)
    (h : get_next_market_hours resolve nowAt fuel date = some s) :
    ∃ d, date ≤ d ∧ resolve d = some s ∧ ¬ s.endTime < nowAt d ∧
      ∀ e, date ≤ e → e < d → ∀ t, resolve e = some t → t.endTime < nowAt e := by
  induction fuel generalizing date with
  | zero => simp [get_next_market_hours] at h
  | succ fuel ih =>
    rw [get_next_market_hours] at h
    cases hr : resolve date with
    | none =>
      rw [hr] at h
      obtain ⟨d, hd1, hd2, hd3, hd4⟩ := ih (date + 1) h
      refine ⟨d, by omega, hd2, hd3, fun e he1 he2 t ht => ?_⟩
      rcases Nat.eq_or_lt_of_le he1 with rfl | hlt
      · rw [hr] at ht; cases ht
      · exact hd4 e hlt he2 t ht
    | some hh =>
      simp only [hr] at h
      by_cases hend : hh.endTime < nowAt date
      · rw [if_pos hend] at h
        obtain ⟨d, hd1, hd2, hd3, hd4⟩ := ih (date + 1) h
        refine ⟨d, by omega, hd2, hd3, fun e he1 he2 t ht => ?_⟩
        rcases Nat.eq_or_lt_of_le he1 with rfl | hlt
        · rw [hr] at ht; cases ht; exact hend
        · exact hd4 e hlt he2 t ht
      · rw [if_neg hend] at h
        cases h
        exact ⟨date, Nat.le_refl date, hr, hend,
          fun e he1 he2 t ht => absurd (Nat.lt_of_le_of_lt he1 he2) (Nat.lt_irrefl date)⟩

/-- Witness for C4: with no session on day 0 and a fresh session on day 1,
the resolver's return is explained by the first fresh day. -/
theorem get_next_market_hours_first_fresh_witness :
    ∃ d, 0 ≤ d ∧ c4Resolve d = some c4Session ∧ ¬ c4Session.endTime < c4NowAt d ∧
      ∀ e, 0 ≤ e → e < d → ∀ t, c4Resolve e = some t → t.endTime < c4NowAt e :=
  get_next_market_hours_first_fresh c4Resolve c4NowAt 3 0 c4Session (by decide)

/-- If no entry of the session-hours mapping has the `"regularMarket"` key,
the `process_session_hours` loop never assigns its local and leaves the
accumulator untouched. -/
theorem pshLoop_none {μ : Type} (build : μ → GetMarketHoursResponseMessage)
    (sh : List (PyStr × μ)) (acc : Option GetMarketHoursResponseMessage)
    (h : ∀ p ∈ sh, ¬ p.1 = regularMarketKey) :
    pshLoop build sh acc = acc := by
  induction sh generalizing acc with
  | nil => rfl
  | cons p rest ih =>
    obtain ⟨session, markethours⟩ := p
    have hp : ¬ session = regularMarketKey := h ⟨session, markethours⟩ (List.mem_cons_self _ _)
    simp only [pshLoop, hp, if_neg, ite_false]
    exact ih acc (fun q hq => h q (List.mem_cons_of_mem _ hq))

/-- Claim C10: when the upstream market-hours response contains the requested
product but its `sessionHours` mapping has no `"regularMarket"` key,
`get_market_hours` neither returns `none` nor a session: the
`process_session_hours` local `response` is never assigned, the `return
response` raises `UnboundLocalError`, and — the call sitting outside the
retry loop, whose first attempt here succeeded — the exception propagates to
the caller unabsorbed. -/
theorem get_market_hours_unbound {μ : Type} (attempts : Nat → Attempt (MarketHoursRaw μ))
    (product : PyStr) (build : μ → GetMarketHoursResponseMessage)
    (hours : MarketHoursRaw μ) (details : ProductDetails μ)
    (h1 : attempts 0 = .returns hours)
    (h2 : findProductDetails product hours = some details)
    (h3 : ∀ p ∈ details.sessionHours, ¬ p.1 = regularMarketKey) :
    get_market_hours attempts product build = .error .unboundLocalError := by
  have hfetch : retry_fetch_go attempts 0 0 3 = ⟨some hours, 1, 0⟩ :=
    retry_fetch_go_return attempts 0 0 2 hours h1
  unfold get_market_hours
  rw [hfetch]
  simp only [h2]
  unfold process_session_hours
  rw [pshLoop_none build details.sessionHours none h3]

/-- Witness for C10: a concrete payload holding product `"IND"` whose session
hours list only a `"preMarket"` session makes `get_market_hours` raise. -/
theorem get_market_hours_unbound_witness :
    get_market_hours c10Attempts ['I', 'N', 'D'] c10Build = .error .unboundLocalError :=
  get_market_hours_unbound c10Attempts ['I', 'N', 'D'] c10Build c10Hours c10Details
    rfl (by decide) (by decide)

/-- Removing every occurrence of a character is a filter. -/
theorem removeChar_eq_filter (ch : Char) (s : PyStr) :
    removeChar ch s = s.filter (fun c => c != ch) := by
  induction s with
  | nil => rfl
  | cons c rest ih =>
    by_cases h : c = ch
    · subst h; simp [removeChar, ih, List.filter_cons]
    · have hb : (c != ch) = true := by simpa using h
      simp [removeChar, h, ih, List.filter_cons, hb]

/-- A split never produces the empty list of segments. -/
theorem splitOnChar_ne_nil (sep : Char) (s : PyStr) : splitOnChar sep s ≠ [] := by
  cases s with
  | nil => simp [splitOnChar]
  | cons c rest =>
    simp only [splitOnChar]
    cases h : splitOnChar sep rest with
    | nil => simp
    | cons w ws => by_cases hc : c = sep <;> simp [hc]

/-- The first split segment is the prefix before the first separator. -/
theorem splitOnChar_getD_zero (sep : Char) (s : PyStr) :
    (splitOnChar sep s).getD 0 [] = s.takeWhile (fun c => c != sep) := by
  induction s with
  | nil => rfl
  | cons c rest ih =>
    simp only [splitOnChar]
    cases h : splitOnChar sep rest with
    | nil => exact absurd h (splitOnChar_ne_nil sep rest)
    | cons w ws =>
      rw [h] at ih
      by_cases hc : c = sep
      · subst hc
        simp [List.takeWhile_cons]
      · have hb : (c != sep) = true := by simpa using hc
        simp [hc, List.takeWhile_cons, hb]
        simpa using ih

/-- Splitting a string that does not contain the separator yields the string
as its only segment. -/
theorem splitOnChar_not_mem (sep : Char) (s : PyStr) (h : ¬ sep ∈ s) :
    splitOnChar sep s = [s] := by
  induction s with
  | nil => rfl
  | cons c rest ih =>
    have hc : ¬ c = sep := fun hh => h (hh ▸ List.mem_cons_self c rest)
    have hr : ¬ sep ∈ rest := fun hm => h (List.mem_cons_of_mem c hm)
    simp [splitOnChar, ih hr, hc]

/-- Splitting `x ++ sep :: r` with `sep` absent from `x` peels off `x` as the
first segment. -/
theorem splitOnChar_append_cons (sep : Char) (x r : PyStr) (hx : ¬ sep ∈ x) :
    splitOnChar sep (x ++ sep :: r) = x :: splitOnChar sep r := by
  induction x with
  | nil =>
    simp only [List.nil_append, splitOnChar]
    cases h : splitOnChar sep r with
    | nil => exact absurd h (splitOnChar_ne_nil sep r)
    | cons w ws => simp
  | cons c xs ih =>
    have hc : ¬ c = sep := fun hh => hx (hh ▸ List.mem_cons_self c xs)
    have hxs : ¬ sep ∈ xs := fun hm => hx (List.mem_cons_of_mem c hm)
    simp only [List.cons_append, splitOnChar, List.append_eq]
    rw [ih hxs]
    simp [hc]

/-- The code's ticker — first segment of the dollar-stripped symbol split at
dots — equals every `"$"` removed then taken before the first `"."`. -/
theorem ticker_parts_getD_zero (symbol : PyStr) :
    (ticker_parts symbol).getD 0 [] = tickerSpecAllDollars symbol := by
  unfold ticker_parts tickerSpecAllDollars
  rw [splitOnChar_getD_zero, removeChar_eq_filter]

/-- The `exp_date` derived from a well-formed composite key
`y-m-d:dte` is the concatenation `y ++ m ++ d`. -/
theorem exp_date_of_key (y m d dte : PyStr)
    (hy1 : ¬ '-' ∈ y) (hm1 : ¬ '-' ∈ m) (hd1 : ¬ '-' ∈ d)
    (hy2 : ¬ ':' ∈ y) (hm2 : ¬ ':' ∈ m) (hd2 : ¬ ':' ∈ d) :
    exp_date_of (y ++ '-' :: (m ++ '-' :: (d ++ ':' :: dte))) = y ++ m ++ d := by
  have hkey : y ++ '-' :: (m ++ '-' :: (d ++ ':' :: dte)) =
      (y ++ '-' :: (m ++ '-' :: d)) ++ ':' :: dte := by
    simp
  have hnc : ¬ ':' ∈ (y ++ '-' :: (m ++ '-' :: d)) := by
    simp [hy2, hm2, hd2]
  simp only [exp_date_of]
  rw [hkey, splitOnChar_append_cons ':' (y ++ '-' :: (m ++ '-' :: d)) dte hnc]
  simp only [List.getD_cons_zero]
  rw [splitOnChar_append_cons '-' y (m ++ '-' :: d) hy1,
    splitOnChar_append_cons '-' m d hm1,
    splitOnChar_not_mem '-' d hd1]
  rfl

/-- Claim C7 (counterexample): for the configured symbol `"A$B.X"` the code
derives ticker `"AB"` — `replace("$", "")` removes every dollar sign, not
just a leading one — so the file written for key `"2024-03-15:7"` is
`AB.20240315.csv`, not the `A$B.20240315.csv` that the claim's
leading-dollar ticker derivation would give. -/
theorem save_to_csv_dollar_cex :
    (save_to_csv c7CexSymbol c7CexKey c7Today []).fileName =
      ['A', 'B', '.', '2', '0', '2', '4', '0', '3', '1', '5', '.', 'c', 's', 'v'] ∧
    tickerSpecLeading c7CexSymbol = ['A', '$', 'B'] ∧
    (save_to_csv c7CexSymbol c7CexKey c7Today []).fileName ≠
      tickerSpecLeading c7CexSymbol ++
        '.' :: ['2', '0', '2', '4', '0', '3', '1', '5'] ++ ['.', 'c', 's', 'v'] := by
  refine ⟨rfl, rfl, by decide⟩

/-- Claim C7 (amended): for an expiration key `"YYYY-MM-DD:d"` and a
configured symbol, the persisted rows go to `\x7bticker\x7d.\x7bYYYYMMDD\x7d.csv`
inside the day's output folder, where the ticker is the symbol with every
`"$"` removed (not only a leading one) and taken before the first `"."` —
so key `"2024-03-15:7"` with ticker SPX yields `SPX.20240315.csv` — and a
header row is written if and only if that file did not already exist. -/
theorem save_to_csv_spec (symbol y m d dte : PyStr) (today : DateParts)
    (existing : List PyStr)
    (hy1 : ¬ '-' ∈ y) (hm1 : ¬ '-' ∈ m) (hd1 : ¬ '-' ∈ d)
    (hy2 : ¬ ':' ∈ y) (hm2 : ¬ ':' ∈ m) (hd2 : ¬ ':' ∈ d) :
    (save_to_csv symbol (y ++ '-' :: (m ++ '-' :: (d ++ ':' :: dte))) today existing).fileName =
      tickerSpecAllDollars symbol ++ '.' :: (y ++ m ++ d) ++ ['.', 'c', 's', 'v'] ∧
    ((save_to_csv symbol (y ++ '-' :: (m ++ '-' :: (d ++ ':' :: dte))) today existing).header
        = true ↔
      ¬ (get_output_path symbol today ++ '/' ::
          (save_to_csv symbol (y ++ '-' :: (m ++ '-' :: (d ++ ':' :: dte)))
            today existing).fileName) ∈ existing) ∧
    (save_to_csv symbol (y ++ '-' :: (m ++ '-' :: (d ++ ':' :: dte))) today existing).folder =
      get_output_path symbol today := by
  have hticker := ticker_parts_getD_zero symbol
  have hdate := exp_date_of_key y m d dte hy1 hm1 hd1 hy2 hm2 hd2
  refine ⟨?_, ?_, rfl⟩
  · simp only [save_to_csv]
    rw [hticker, hdate]
  · simp only [save_to_csv]
    split_ifs with hm
    · exact iff_of_false (by simp) (fun hq => hq hm)
    · exact iff_of_true rfl hm

/-- Witness for C7's amended statement at the default symbol `"$SPX.X"` and
key `"2024-03-15:7"` on an empty disk: the file is `SPX.20240315.csv` under
the day's folder and the header is written. -/
theorem save_to_csv_spec_witness :
    (save_to_csv c7Symbol (c7Y ++ '-' :: (c7M ++ '-' :: (c7D ++ ':' :: c7Dte)))
        c7Today []).fileName =
      tickerSpecAllDollars c7Symbol ++ '.' :: (c7Y ++ c7M ++ c7D) ++ ['.', 'c', 's', 'v'] ∧
    ((save_to_csv c7Symbol (c7Y ++ '-' :: (c7M ++ '-' :: (c7D ++ ':' :: c7Dte)))
        c7Today []).header = true ↔
      ¬ (get_output_path c7Symbol c7Today ++ '/' ::
          (save_to_csv c7Symbol (c7Y ++ '-' :: (c7M ++ '-' :: (c7D ++ ':' :: c7Dte)))
            c7Today []).fileName) ∈ ([] : List PyStr)) ∧
    (save_to_csv c7Symbol (c7Y ++ '-' :: (c7M ++ '-' :: (c7D ++ ':' :: c7Dte)))
        c7Today []).folder = get_output_path c7Symbol c7Today :=
  save_to_csv_spec c7Symbol c7Y c7M c7D c7Dte c7Today []
    (by decide) (by decide) (by decide) (by decide) (by decide) (by decide)

/-- `listStartsWith` recognises exactly the initial segments. -/
theorem listStartsWith_iff (t : PyStr) : ∀ s : PyStr,
    (listStartsWith t s = true ↔ ∃ r, s = t ++ r) := by
  induction t with
  | nil => intro s; simp [listStartsWith]
  | cons a t1 ih =>
    intro s
    cases s with
    | nil =>
      simp [listStartsWith]
    | cons b s1 =>
      simp only [listStartsWith, Bool.and_eq_true, decide_eq_true_eq, ih s1]
      constructor
      · rintro ⟨rfl, r, rfl⟩
        exact ⟨r, rfl⟩
      · rintro ⟨r, hr⟩
        rw [List.cons_append] at hr
        cases hr
        exact ⟨rfl, r, rfl⟩

/-- `listEndsWith` recognises exactly the suffixes. -/
theorem listEndsWith_iff (t s : PyStr) :
    listEndsWith t s = true ↔ ∃ p, s = p ++ t := by
  unfold listEndsWith
  rw [listStartsWith_iff]
  constructor
  · rintro ⟨r, hr⟩
    refine ⟨r.reverse, ?_⟩
    have h2 := congrArg List.reverse hr
    simpa [List.reverse_append] using h2
  · rintro ⟨p, rfl⟩
    exact ⟨p.reverse, by simp [List.reverse_append]⟩

/-- A name ending in `".csv"` is never an archival target name (which ends in
`".gz"`). -/
theorem endsWithCsv_ne_gzName (n m : PyStr) (h : endsWithCsv n = true) :
    ¬ n = gzName m := by
  intro he
  obtain ⟨p, hp⟩ := (listEndsWith_iff csvSuffix n).1 h
  rw [hp] at he
  have h2 := congrArg List.reverse he
  simp [List.reverse_append, csvSuffix, gzName] at h2

/-- Appending `".gz"` is injective on names. -/
theorem gzName_inj (n m : PyStr) (h : gzName n = gzName m) : n = m := by
  have h2 := congrArg List.reverse h
  simp only [gzName, List.reverse_append, List.reverse_cons, List.reverse_nil,
    List.nil_append, List.cons_append, List.cons.injEq, true_and] at h2
  simpa using congrArg List.reverse h2

/-- Looking up the name just written returns the written content. -/
theorem lookupFile_setFile_self (d : Dir) (n : PyStr) (c : List Char) :
    lookupFile (setFile d n c) n = some c := by
  induction d with
  | nil => simp [setFile, lookupFile]
  | cons p rest ih =>
    obtain ⟨m, cc⟩ := p
    by_cases h : m = n <;> simp [setFile, lookupFile, h, ih]

/-- Writing one name leaves every other name's lookup unchanged. -/
theorem lookupFile_setFile_ne (d : Dir) (n x : PyStr) (c : List Char) (h : ¬ x = n) :
    lookupFile (setFile d n c) x = lookupFile d x := by
  have h2 : ¬ n = x := fun hh => h hh.symm
  induction d with
  | nil => simp [setFile, lookupFile, h2]
  | cons p rest ih =>
    obtain ⟨m, cc⟩ := p
    by_cases hm : m = n
    · subst hm
      simp [setFile, lookupFile, h2]
    · simp [setFile, lookupFile, hm, ih]

/-- The archival loop touches only the `.gz` siblings of the `.csv` names in
its snapshot: any other name's lookup is unchanged. -/
theorem process_after_hours_go_preserve (compress : List Char → List Char)
    (snapshot : List PyStr) :
    ∀ (d : Dir) (x : PyStr),
      (∀ n, n ∈ snapshot → endsWithCsv n = true → ¬ x = gzName n) →
      lookupFile (process_after_hours_go compress snapshot d) x = lookupFile d x := by
  induction snapshot with
  | nil => intro d x _; rfl
  | cons a rest ih =>
    intro d x hx
    by_cases ha : endsWithCsv a = true
    · simp only [process_after_hours_go, ha, if_true]
      rw [ih _ x (fun n hn hcsv => hx n (List.mem_cons_of_mem a hn) hcsv)]
      exact lookupFile_setFile_ne d (gzName a) x _ (hx a (List.mem_cons_self a rest) ha)
    · simp only [process_after_hours_go, ha, if_false]
      exact ih d x (fun n hn hcsv => hx n (List.mem_cons_of_mem a hn) hcsv)

/-- After the archival loop, the `.gz` sibling of each snapshot `.csv` holds
the compression of that file's content as it was when the loop started. -/
theorem process_after_hours_go_gz (compress : List Char → List Char)
    (snapshot : List PyStr) :
    ∀ (d : Dir) (n : PyStr), n ∈ snapshot → endsWithCsv n = true →
      lookupFile (process_after_hours_go compress snapshot d) (gzName n) =
        some (compress ((lookupFile d n).getD [])) := by
  induction snapshot with
  | nil => intro d n hn _; cases hn
  | cons a rest ih =>
    intro d n hn hcsv
    rcases List.mem_cons.1 hn with rfl | hmem
    · simp only [process_after_hours_go, hcsv, if_true]
      by_cases hr : n ∈ rest
      · rw [ih _ n hr hcsv,
          lookupFile_setFile_ne d (gzName n) n _ (endsWithCsv_ne_gzName n n hcsv)]
      · rw [process_after_hours_go_preserve compress rest _ (gzName n)
          (fun k hk hkcsv heq => hr (gzName_inj n k heq ▸ hk))]
        exact lookupFile_setFile_self d (gzName n) _
    · by_cases ha : endsWithCsv a = true
      · simp only [process_after_hours_go, ha, if_true]
        rw [ih _ n hmem hcsv,
          lookupFile_setFile_ne d (gzName a) n _ (endsWithCsv_ne_gzName n a hcsv)]
      · simp only [process_after_hours_go, ha, if_false]
        exact ih d n hmem hcsv

/-- Claim C8 (counterexample): with `a.csv` (content `1`) and a stale
pre-existing `a.csv.gz` (content `2`) in the day's folder, archival
overwrites `a.csv.gz` with the fresh compression of `a.csv` — the
pre-existing `.csv.gz` file is touched, contradicting the claim. -/
theorem process_after_hours_overwrite_cex :
    lookupFile c8CexDir c8GzExisting = some ['2'] ∧
    lookupFile (process_after_hours id c8CexDir) c8GzExisting = some ['1'] ∧
    (some ['1'] : Option (List Char)) ≠ some ['2'] := by
  refine ⟨rfl, rfl, by decide⟩

/-- Claim C8 (amended): archival compresses every `.csv` in the day's folder
into the sibling name with `.gz` appended, whose content is the compression
of the `.csv`'s pre-archival content (decompressing to exactly that content
when the gzip round-trip holds); every `.csv` original is unchanged, and
every file whose name is not the `.gz` sibling of some `.csv` in the folder
is unchanged — but a pre-existing `f.csv.gz` whose `f.csv` is present is
overwritten with the fresh compression. -/
theorem process_after_hours_spec (compress decompress : List Char → List Char)
    (d : Dir) (hround : ∀ c, decompress (compress c) = c) :
    (∀ n, n ∈ d.map Prod.fst → endsWithCsv n = true →
      lookupFile (process_after_hours compress d) (gzName n) =
        some (compress ((lookupFile d n).getD [])) ∧
      decompress ((lookupFile (process_after_hours compress d) (gzName n)).getD []) =
        (lookupFile d n).getD []) ∧
    (∀ n, endsWithCsv n = true →
      lookupFile (process_after_hours compress d) n = lookupFile d n) ∧
    (∀ x, (∀ n, n ∈ d.map Prod.fst → endsWithCsv n = true → ¬ x = gzName n) →
      lookupFile (process_after_hours compress d) x = lookupFile d x) := by
  refine ⟨fun n hn hcsv => ?_, fun n hcsv => ?_, fun x hx => ?_⟩
  · have hgz := process_after_hours_go_gz compress (d.map Prod.fst) d n hn hcsv
    refine ⟨hgz, ?_⟩
    rw [process_after_hours, hgz]
    simp [hround]
  · exact process_after_hours_go_preserve compress (d.map Prod.fst) d n
      (fun k _ _ => endsWithCsv_ne_gzName n k hcsv)
  · exact process_after_hours_go_preserve compress (d.map Prod.fst) d x hx

/-- Witness for C8's amended statement: the folder holding only `b.csv` gains
`b.csv.gz` with the (identity-)compressed content, round-tripping to the
original. -/
theorem process_after_hours_spec_witness :
    lookupFile (process_after_hours id c8WDir) (gzName ['b', '.', 'c', 's', 'v']) =
      some (id ((lookupFile c8WDir ['b', '.', 'c', 's', 'v']).getD [])) ∧
    id ((lookupFile (process_after_hours id c8WDir)
        (gzName ['b', '.', 'c', 's', 'v'])).getD []) =
      (lookupFile c8WDir ['b', '.', 'c', 's', 'v']).getD [] :=
  (process_after_hours_spec id id c8WDir (fun _ => rfl)).1
    ['b', '.', 'c', 's', 'v'] (by decide) (by decide)

end Excavator
